import Mathlib

/-!
Shallow embedding of the flight-plan authorization and telemetry simulation
engine of the backend-utm service (src/app.service.ts), together with theorems
settling the specification claims about it.

Numbers are modelled over ℚ (the JavaScript arithmetic involved is exact on the
rationals appearing in the control-flow decisions we reason about).  External
HTTP calls are modelled by environments supplying `Except String`-valued
results; a thrown exception is an `error` carrying the thrown message.
-/

attribute [local semireducible] Rat.add Rat.mul Rat.inv Rat.sub Rat.ofScientific

namespace UTM

/-- Zone classifications, from `src/types/enums.ts` (`enum ZoneType`).  The
TypeScript values are the strings "rural", "urban", "hospitals", "military",
"restricted". -/
inductive ZoneType where
  | rural
  | urban
  | hospitals
  | military
  | restricted
deriving DecidableEq, Repr

/-- The runtime object a TypeScript string enum compiles to maps each KEY to
its value and nothing else: `ZoneType[s]` is defined exactly when `s` is one of
the member names, and is `undefined` otherwise.  This models the expression
`ZoneType[zone.zoneType.toString()]` from `app.service.ts`. -/
def zoneTypeLookup : String → Option ZoneType
  | "RURAL" => some .rural
  | "URBAN" => some .urban
  | "HOSPITALS" => some .hospitals
  | "MILITARY" => some .military
  | "RESTRICTED" => some .restricted
  | _ => none

/-- A boundary vertex, from `src/types/zone.ts` (`interface Coordinates`). -/
structure Coordinates where
  latitude : ℚ
  longitude : ℚ
deriving DecidableEq, Repr

/-- An airspace zone, from `src/types/zone.ts` (`interface Zone`).  The
`zoneType` field is kept as the wire string; unused metadata fields
(`description`, `createdAt`, `updatedAt`) are omitted. -/
structure Zone where
  _id : String
  name : String
  zoneType : String
  boundaries : List Coordinates
  maxAltitude : ℚ
  minAltitude : ℚ
  isActive : Bool
deriving DecidableEq, Repr

/-- A route point, from `src/types/route.ts` (`Position`). -/
structure Position where
  lat : ℚ
  lon : ℚ
  alt : ℚ
deriving DecidableEq, Repr

/-! ### Point-in-polygon (turf `booleanPointInPolygon`)

`turf.booleanPointInPolygon` on a single-ring polygon reduces to its `inRing`
helper: if the ring's first and last vertices coincide the last is dropped,
then the cyclic edge list is scanned; an edge on whose segment the query point
lies returns `true` immediately, otherwise an even-odd ray-casting parity is
accumulated. -/

/-- turf `inRing` boundary test for one edge: the query point lies on the
closed segment from `(xj, yj)` to `(xi, yi)`. -/
def onBoundaryEdge (px py xi yi xj yj : ℚ) : Bool :=
  decide (py * (xi - xj) + yi * (xj - px) + yj * (px - xi) = 0 ∧
    (xi - px) * (xj - px) ≤ 0 ∧ (yi - py) * (yj - py) ≤ 0)

/-- turf `inRing` ray-crossing test for one edge.  The division is guarded by
the first conjunct exactly as in the source (`&&` short-circuits before the
division can see `yj - yi = 0`; over ℚ the unguarded value is irrelevant since
the conjunction is already false). -/
def intersectEdge (px py xi yi xj yj : ℚ) : Bool :=
  decide ((¬ (yi > py ↔ yj > py)) ∧ px < (xj - xi) * (py - yi) / (yj - yi) + xi)

/-- The scan over the edge list: `isInside` is the parity accumulator, an
on-boundary edge returns `true` at once (turf is called without options, so
`ignoreBoundary` is falsy and `!ignoreBoundary` is `true`). -/
def inRingAux (px py : ℚ) : List ((ℚ × ℚ) × (ℚ × ℚ)) → Bool → Bool
  | [], isInside => isInside
  | ((xi, yi), (xj, yj)) :: rest, isInside =>
    if onBoundaryEdge px py xi yi xj yj then true
    else inRingAux px py rest
      (if intersectEdge px py xi yi xj yj then !isInside else isInside)

/-- The cyclic edge list of a ring: element `i` is paired with element
`(i - 1) mod n`, i.e. `(ring[i], ring[j])` for `j = i-1` (wrapping), in turf's
iteration order. -/
def ringEdges (r : List (ℚ × ℚ)) : List ((ℚ × ℚ) × (ℚ × ℚ)) :=
  match r.getLast? with
  | none => []
  | some lastv => r.zip (lastv :: r.dropLast)

/-- turf `inRing` drops the last vertex when it coincides with the first. -/
def normRing (r : List (ℚ × ℚ)) : List (ℚ × ℚ) :=
  match r.head?, r.getLast? with
  | some a, some b => if a = b then r.dropLast else r
  | _, _ => r

/-- `turf.booleanPointInPolygon` for a point and a single polygon ring
(no holes, no precomputed bbox on polygons built by `turf.polygon`). -/
def pipRing (pt : ℚ × ℚ) (r : List (ℚ × ℚ)) : Bool :=
  inRingAux pt.1 pt.2 (ringEdges (normRing r)) false

/-- `zone.boundaries.push(zone.boundaries[0])` — the in-place "closing" step
performed before every containment check in `getRouteCharacteristics` (and in
`generateMockFlightPlan`).  On the empty list the source would push
`undefined`; we return `[]` (theorems about zones carry the spec's well-formed
boundary hypothesis, under which this case does not arise). -/
def closeOnce (bs : List Coordinates) : List Coordinates :=
  match bs.head? with
  | none => []
  | some h => bs ++ [h]

/-- A boundary list after `n` closing pushes. -/
def padRing (l : List α) (n : Nat) : List α :=
  match l.head? with
  | none => []
  | some h => l ++ List.replicate n h

/-- The `[longitude, latitude]` coordinate ring handed to `turf.polygon`. -/
def ringOf (bs : List Coordinates) : List (ℚ × ℚ) :=
  bs.map fun c => (c.longitude, c.latitude)

/-- Containment of a route point in a zone's polygon as computed on the first
check of a pristine zone: the boundary closed once, then the turf test on
`(lon, lat)`. -/
def zonePolygonContains (z : Zone) (p : Position) : Bool :=
  pipRing (p.lon, p.lat) (ringOf (closeOnce z.boundaries))

/-! ### Route characterizer (`getRouteCharacteristics`) -/

/-- The value computed by `getRouteCharacteristics`.  The `zones` entries are
the results of the reverse enum lookup, hence `Option ZoneType` (`undefined`
is a possible array element at runtime). -/
structure RouteCharacteristics where
  droneId : Option String
  zones : List (Option ZoneType)
  altitudeLimit : Int
deriving DecidableEq, Repr

/-- The flight plan of a pre-authorization request
(`src/types/dto.ts`, `FlightPlan`).  Times are unix-second integers. -/
structure FlightPlanReq where
  route : List Position
  start_time : Int
  end_time : Int
deriving DecidableEq, Repr

/-- A pre-authorization request (`src/types/dto.ts`,
`PreAuthorizationRequest`); both fields may be absent at runtime. -/
structure PreAuthRequest where
  droneId : Option String
  flightPlan : Option FlightPlanReq
deriving DecidableEq, Repr

/-- The per-zone body of the inner `zonesLimits.forEach` in
`getRouteCharacteristics`: skip inactive zones, skip zones whose (looked-up)
classification is already accumulated, otherwise push the closing vertex onto
the zone's boundary array IN PLACE, run the turf containment test, and append
the classification when the point is inside.  Returns the (possibly mutated)
zone together with the new accumulator. -/
def checkZoneForPoint (p : Position) (zone : Zone) (acc : List (Option ZoneType)) :
    Zone × List (Option ZoneType) :=
  if !zone.isActive then (zone, acc)
  else if zoneTypeLookup zone.zoneType ∈ acc then (zone, acc)
  else
    let zb := closeOnce zone.boundaries
    let inside := pipRing (p.lon, p.lat) (ringOf zb)
    let acc2 :=
      if inside = true ∧ zoneTypeLookup zone.zoneType ∉ acc then
        acc ++ [zoneTypeLookup zone.zoneType]
      else acc
    ({ zone with boundaries := zb }, acc2)

/-- One route point against the whole (stateful) zone list. -/
def scanZones (p : Position) : List Zone → List (Option ZoneType) →
    List Zone × List (Option ZoneType)
  | [], acc => ([], acc)
  | z :: zs, acc =>
    let r1 := checkZoneForPoint p z acc
    let r2 := scanZones p zs r1.2
    (r1.1 :: r2.1, r2.2)

/-- The outer `request.flightPlan.route.forEach`, threading the mutated zone
objects from point to point. -/
def scanRoute : List Position → List Zone → List (Option ZoneType) →
    List Zone × List (Option ZoneType)
  | [], zones, acc => (zones, acc)
  | p :: ps, zones, acc =>
    let r1 := scanZones p zones acc
    scanRoute ps r1.1 r1.2

/-- `getRouteCharacteristics`, given the zone list the external `GET zones`
call returned: the altitude limit is the maximum route altitude (0 for a
missing flight plan or empty route) floored to an integer, and the zone list
is the accumulator of the point/zone scan. -/
def getRouteCharacteristics (zonesLimits : List Zone) (request : PreAuthRequest) :
    RouteCharacteristics :=
  let altitudeLimit : ℚ :=
    match request.flightPlan with
    | some fp =>
      match fp.route with
      | [] => 0
      | q :: qs => (qs.map Position.alt).foldl max q.alt
    | none => 0
  let zones : List (Option ZoneType) :=
    match request.flightPlan with
    | some fp =>
      match fp.route with
      | [] => []
      | _ :: _ => (scanRoute fp.route zonesLimits []).2
    | none => []
  { droneId := request.droneId, zones := zones, altitudeLimit := ⌊altitudeLimit⌋ }

/-! ### Pre-authorization workflow (`preAuthorization`) -/

/-- `enum PreAuthorizationStatus { APPROVED, FAILED }` from `src/types/dto.ts`
(a numeric enum). -/
inductive PreAuthorizationStatus where
  | APPROVED
  | FAILED
deriving DecidableEq, Repr

/-- The `data.data` payload the route-permission authority answers with. -/
structure PermResponse where
  droneId : Option String
  preauthorizationStatus : Option PreAuthorizationStatus
  reason : Option String
deriving DecidableEq, Repr

/-- What `preAuthorization` returns: either the authority's payload verbatim,
or the catch-block object `{droneId, preauthorization_status: 'FAILED',
reason}`. -/
inductive PreAuthResult where
  | success (data : PermResponse)
  | failed (droneId : Option String) (reason : String)
deriving DecidableEq, Repr

/-- `error.message || 'Unknown error'` — JavaScript `||` falls through to the
default exactly when the message is the empty string (the only falsy string). -/
def reasonOf (msg : String) : String :=
  if msg = "" then "Unknown error" else msg

/-- `!request.droneId || !request.flightPlan`: a missing or empty `droneId`
string is falsy, as is a missing `flightPlan` object. -/
def validationFails (request : PreAuthRequest) : Bool :=
  (match request.droneId with
   | none => true
   | some s => s = "") ||
  request.flightPlan.isNone

/-- The external collaborators `preAuthorization` consults: the `GET zones`
call (through `getZonesLimits`) and the `POST route-permissions/check` call
(fetch + json + `data.data` extraction).  An `error` is a thrown exception
carrying its message. -/
structure PreAuthEnv where
  zonesFetch : Except String (List Zone)
  permissionCheck : RouteCharacteristics → Except String PermResponse

/-- Which external interactions a run of `preAuthorization` performed:
whether the zone list was requested, and the characteristics submitted to the
permission authority (if the run got that far). -/
structure PreAuthTrace where
  zonesRequested : Bool
  submitted : Option RouteCharacteristics
deriving DecidableEq, Repr

/-- The characteristics `preAuthorization` submits to the permission
authority: the computed characteristics, with an empty zone list replaced by
`[ZoneType.RESTRICTED]` (app.service.ts:68-71). -/
def submittedCharacteristics (zonesLimits : List Zone) (request : PreAuthRequest) :
    RouteCharacteristics :=
  let rc0 := getRouteCharacteristics zonesLimits request
  { rc0 with
    zones := if rc0.zones.length > 0 then rc0.zones else [some .restricted] }

/-- `preAuthorization` (app.service.ts:43-110).  Validation and every
downstream failure are caught by the surrounding try/catch and converted into
the FAILED object; on the success path the substituted zone default
`[ZoneType.RESTRICTED]` is applied before submission. -/
def preAuthorization (env : PreAuthEnv) (request : PreAuthRequest) :
    PreAuthResult × PreAuthTrace :=
  if validationFails request then
    (.failed request.droneId
      (reasonOf "Invalid request: droneId and flightPlan are required."),
     ⟨false, none⟩)
  else
    match env.zonesFetch with
    | .error e => (.failed request.droneId (reasonOf e), ⟨true, none⟩)
    | .ok zonesLimits =>
      let rc := submittedCharacteristics zonesLimits request
      match env.permissionCheck rc with
      | .error e => (.failed request.droneId (reasonOf e), ⟨true, some rc⟩)
      | .ok data => (.success data, ⟨true, some rc⟩)

/-! ### Mock flight-plan generator (`generateMockFlightPlan`), first point -/

/-- The outcomes of the `Math.random()` draws feeding the first-point
generation: three draws for the fallback point, plus the accepted
rejection-sampling point and the altitude draw for the zone branch. -/
structure FirstPointRand where
  r1 : ℚ
  r2 : ℚ
  r3 : ℚ
  zonePoint : ℚ × ℚ
  rAlt : ℚ
deriving DecidableEq, Repr

/-- The `zonesLimits.find(...)` selecting the target zone for the first route
point (app.service.ts:802-807).  For an invalid plan the predicate is
`permittedZones.includes(ZoneType.RESTRICTED) && z.isActive`; for a valid plan
it is `permittedZones.includes(ZoneType[z.zoneType.toString()]) &&
z.isActive` (an `undefined` lookup is never a member of `permittedZones`). -/
def selectTargetZone (zonesLimits : List Zone) (permittedZones : List ZoneType)
    (valid : Bool) : Option Zone :=
  zonesLimits.find? fun z =>
    if !valid then
      decide (ZoneType.restricted ∈ permittedZones) && z.isActive
    else
      (match zoneTypeLookup z.zoneType with
       | some t => decide (t ∈ permittedZones)
       | none => false) && z.isActive

/-- The first point of `generateMockFlightPlan` (the `i === 0` branch): a
fixed-region random point when no target zone is found, otherwise a point
sampled inside the target zone's polygon with an altitude drawn from the
zone's altitude band. -/
def generateFirstPoint (zonesLimits : List Zone) (permittedZones : List ZoneType)
    (valid : Bool) (rnd : FirstPointRand) : Position :=
  match selectTargetZone zonesLimits permittedZones valid with
  | none =>
    { lat := rnd.r1 * (1/10) + 407/10
      lon := rnd.r2 * (1/10) - 74
      alt := rnd.r3 * 50 + 100 }
  | some targetZone =>
    { lat := rnd.zonePoint.2
      lon := rnd.zonePoint.1
      alt := rnd.rAlt * (targetZone.maxAltitude - targetZone.minAltitude) +
        targetZone.minAltitude }

/-! ### Scheduler: flight-plan store and authorization attempts -/

/-- A drone record as stored by `addMockDrone` (fields the scheduler reads). -/
structure Drone where
  _id : String
  serialNumber : String
  permittedZones : List ZoneType
deriving DecidableEq, Repr

/-- The flight-plan object each scheduler authorization attempt builds
(app.service.ts:989-1008). -/
structure SchedFlightPlan where
  droneId : String
  route : List Position
  start_time : Int
  end_time : Int
  zones : List (Option ZoneType)
deriving DecidableEq, Repr

/-- A stored waypoint (`src/types/route.ts`, `RoutePoint` with the `finished`
flag). -/
structure RoutePoint where
  lat : ℚ
  lon : ℚ
  altitude : ℚ
  finished : Bool
deriving DecidableEq, Repr

/-- A stored flight plan (`src/types/route.ts`, `Route`). -/
structure Route where
  _id : String
  droneId : String
  path : List RoutePoint
  start_time : Int
  end_time : Int
  finished : Bool
  zones : List (Option ZoneType)
deriving DecidableEq, Repr

/-- `authorizeFlightPlan` (app.service.ts:480-536): the record appended to the
in-memory store — every waypoint unreached, plan not finished.  `newId` is the
generated Mongo ObjectId string. -/
def authorizeFlightPlan (newId : String) (fp : SchedFlightPlan) : Route :=
  { _id := newId
    droneId := fp.droneId
    path := fp.route.map fun p =>
      { lat := p.lat, lon := p.lon, altitude := p.alt, finished := false }
    end_time := fp.end_time
    start_time := fp.start_time
    finished := false
    zones := fp.zones }

/-- Everything one authorization attempt of
`simulateFlightPlansAuthorization` (app.service.ts:962-1022) produced: the
arguments given to the route generator, the characteristics computed, the
flight-plan object built (and passed to `preAuthorization`), the decision, and
the stored record when approved. -/
structure AttemptOutcome where
  genPermittedZones : List ZoneType
  genValid : Bool
  routeCharacteristics : RouteCharacteristics
  flightPlanObj : SchedFlightPlan
  decision : PreAuthResult
  stored : Option Route
deriving DecidableEq, Repr

/-- One authorization attempt of the scheduler tick.  `droneIndex` is the
outcome of `Math.floor(Math.random() * drones.length)`, `attempt` the loop
counter `i` (the first two attempts are valid), `routeGen` the randomized
route generator, `now` the tick's `Date.now()` in unix seconds.  The route is
generated from the randomly selected drone, the characteristics are computed
for THAT drone, but the flight-plan object is built with
`drones[drones.length - 1]._id`.  Returns `none` when the uncaught zone fetch
fails or an index is out of range (the cron run aborts). -/
def schedulerAttempt (env : PreAuthEnv)
    (routeGen : List ZoneType → Bool → List Position) (newPlanId : String)
    (now : Int) (drones : List Drone) (droneIndex : Nat) (attempt : Nat) :
    Option AttemptOutcome :=
  match drones.get? droneIndex, drones.get? (drones.length - 1) with
  | some drone, some lastDrone =>
    match env.zonesFetch with
    | .error _ => none
    | .ok zonesLimits =>
      let valid := attempt < 2
      let route := routeGen drone.permittedZones valid
      let rcA := getRouteCharacteristics zonesLimits
        { droneId := some drone._id
          flightPlan := some { route := route, start_time := now, end_time := now + 1800 } }
      let fp : SchedFlightPlan :=
        { droneId := lastDrone._id
          route := route
          start_time := now
          end_time := now + 1800
          zones := if rcA.zones.length > 0 then rcA.zones else [some .restricted] }
      let decision := (preAuthorization env
        { droneId := some fp.droneId
          flightPlan := some { route := fp.route, start_time := fp.start_time,
                               end_time := fp.end_time } }).1
      let stored :=
        match decision with
        | .success data =>
          if data.preauthorizationStatus = some .APPROVED then
            some (authorizeFlightPlan newPlanId fp)
          else none
        | .failed _ _ => none
      some { genPermittedZones := drone.permittedZones
             genValid := valid
             routeCharacteristics := rcA
             flightPlanObj := fp
             decision := decision
             stored := stored }
  | _, _ => none

/-! ### Telemetry simulation tick (`simulateDroneTelemetry`) -/

/-- The in-memory store the telemetry tick reads and mutates. -/
structure DB where
  drones : List Drone
  flightPlans : List Route
deriving DecidableEq, Repr

/-- Whether the two external POSTs of the telemetry loop succeed:
`/api/violations/report` (through `sendViolation`) and `/api/route-logs/log`
(through `completeFlightPlan`).  Both helpers rethrow a fixed message on any
failure. -/
structure TelemetryEnv where
  violationOk : Bool
  completionOk : Bool
deriving DecidableEq, Repr

/-- The events successfully emitted to the external collaborator during a
tick. -/
inductive TelemetryEvent where
  | violation (droneId : String) (lat lon alt : ℚ)
  | completion (planId : String) (droneId : String)
deriving DecidableEq, Repr

/-- `flightPlan.path.findIndex((point) => !point.finished)` — the index of the
first unreached waypoint (`none` models the JavaScript `-1`). -/
def findIndexNotFinished : List RoutePoint → Option Nat
  | [] => none
  | a :: t => if !a.finished then some 0 else (findIndexNotFinished t).map (· + 1)

/-- How the per-plan step loop ended: fall through to the next plan, `return`
from the entire tick, or an uncaught exception aborting the tick. -/
inductive StepResult where
  | toNextPlan (db : DB) (trace : List TelemetryEvent)
  | stopTick (db : DB) (trace : List TelemetryEvent)
  | failTick (msg : String) (db : DB) (trace : List TelemetryEvent)
deriving DecidableEq, Repr

/-- The inner `for (let i = 0; i < 40; i++)` loop of `simulateDroneTelemetry`
for the plan at store index `idx` (the filtered array holds references into
the store, so the plan is re-read from the current store each step).  Per
step: find the plan's drone (tick `return`s when absent), locate the first
unreached waypoint (none left: mark the plan finished, emit the completion
record, `return` from the tick), every 30th step emit a violation built from
the current waypoint offset by (+0.1, +0.1, +100) BEFORE marking, then mark
the current waypoint reached.  A failing emission rethrows and nothing
catches it. -/
def telemetrySteps (env : TelemetryEnv) (idx : Nat) :
    Nat → Nat → DB → List TelemetryEvent → StepResult
  | 0, _, db, trace => .toNextPlan db trace
  | fuel + 1, i, db, trace =>
    match db.flightPlans.get? idx with
    | none => .toNextPlan db trace
    | some plan =>
      match db.drones.find? (fun d => decide (d._id = plan.droneId)) with
      | none => .stopTick db trace
      | some drone =>
        match findIndexNotFinished plan.path with
        | none =>
          let db2 : DB :=
            { db with flightPlans := db.flightPlans.set idx { plan with finished := true } }
          if env.completionOk then
            .stopTick db2 (trace ++ [.completion plan._id plan.droneId])
          else
            .failTick "Failed to complete flight plan on backend" db2 trace
        | some routePoint =>
          match plan.path.get? routePoint with
          | none => .toNextPlan db trace
          | some pt =>
            if i % 30 = 0 then
              if env.violationOk then
                let trace2 := trace ++
                  [.violation drone._id (pt.lat + 1/10) (pt.lon + 1/10) (pt.altitude + 100)]
                let plan2 := { plan with
                  path := plan.path.set routePoint { pt with finished := true } }
                let db2 : DB := { db with flightPlans := db.flightPlans.set idx plan2 }
                telemetrySteps env idx fuel (i + 1) db2 trace2
              else
                .failTick "Failed to send violation to backend" db trace
            else
              let plan2 := { plan with
                path := plan.path.set routePoint { pt with finished := true } }
              let db2 : DB := { db with flightPlans := db.flightPlans.set idx plan2 }
              telemetrySteps env idx fuel (i + 1) db2 trace

/-- How the whole tick ended: normally (including the early `return`s) or
with an uncaught exception. -/
inductive TickOutcome where
  | ok (db : DB) (trace : List TelemetryEvent)
  | err (msg : String) (db : DB) (trace : List TelemetryEvent)
deriving DecidableEq, Repr

/-- The store a tick outcome left behind. -/
def TickOutcome.getDb : TickOutcome → DB
  | .ok db _ => db
  | .err _ db _ => db

/-- The outer loop over the (indices of the) non-finished plans captured at
tick start.  A plan with a missing or empty path is skipped (`continue`). -/
def telemetryPlans (env : TelemetryEnv) :
    List Nat → DB → List TelemetryEvent → TickOutcome
  | [], db, trace => .ok db trace
  | idx :: rest, db, trace =>
    match db.flightPlans.get? idx with
    | none => telemetryPlans env rest db trace
    | some plan =>
      if plan.path.length = 0 then telemetryPlans env rest db trace
      else
        match telemetrySteps env idx 40 0 db trace with
        | .toNextPlan db2 trace2 => telemetryPlans env rest db2 trace2
        | .stopTick db2 trace2 => .ok db2 trace2
        | .failTick msg db2 trace2 => .err msg db2 trace2

/-- The telemetry cron tick `simulateDroneTelemetry`
(app.service.ts:1038-1120). -/
def simulateDroneTelemetry (env : TelemetryEnv) (db : DB) : TickOutcome :=
  let idxs := (List.range db.flightPlans.length).filter fun i =>
    match db.flightPlans.get? i with
    | some p => !p.finished
    | none => false
  if idxs.isEmpty then .ok db [] else telemetryPlans env idxs db []

/-! ## Concrete fixtures used in evaluations -/

/-- An active urban zone with a 4-vertex rectangular boundary (latitudes
40.7–41, longitudes −74.1–−74). -/
def zoneUrbanEx : Zone :=
  { _id := "z1", name := "Urban Test Zone", zoneType := "URBAN"
    boundaries := [⟨407/10, -741/10⟩, ⟨41, -741/10⟩, ⟨41, -74⟩, ⟨407/10, -74⟩]
    maxAltitude := 120, minAltitude := 0, isActive := true }

/-- A point far outside `zoneUrbanEx`. -/
def pointOutsideEx : Position := { lat := 30, lon := 0, alt := 60 }

/-- A syntactically complete request with `droneId = "d1"`. -/
def reqD1 : PreAuthRequest :=
  { droneId := some "d1"
    flightPlan := some ⟨[⟨4075/100, -7405/100, 160⟩], 0, 3600⟩ }

/-- A request with a missing `droneId`. -/
def reqNoId : PreAuthRequest :=
  { droneId := none
    flightPlan := some ⟨[⟨4075/100, -7405/100, 160⟩], 0, 3600⟩ }

/-- An environment whose permission-check call rejects with message
"Network error". -/
def envNet : PreAuthEnv := ⟨.ok [], fun _ => .error "Network error"⟩

/-- An environment whose permission-check call rejects with an empty
message. -/
def envEmptyMsg : PreAuthEnv := ⟨.ok [], fun _ => .error ""⟩

/-- An arbitrary environment (used where the run never reaches it). -/
def envErrX : PreAuthEnv := ⟨.ok [], fun _ => .error "x"⟩

/-! ## C1 — zone containment check and boundary mutation -/

/-- C1 (code bug): the per-zone containment check performed inside
`getRouteCharacteristics` pushes a closing vertex onto the zone's boundary
array in place on every run, so running it twice on the same zone leaves the
boundary at length 5 after the first run and length 6 after the second — not
the same length both times as the claim requires — even though the boolean
outcome is the same both times. -/
theorem zoneCheck_mutates_boundaries :
    zoneUrbanEx.isActive = true ∧
    zoneUrbanEx.boundaries.length = 4 ∧
    (checkZoneForPoint pointOutsideEx zoneUrbanEx []).1.boundaries.length = 5 ∧
    (checkZoneForPoint pointOutsideEx
      (checkZoneForPoint pointOutsideEx zoneUrbanEx []).1 []).1.boundaries.length = 6 ∧
    (checkZoneForPoint pointOutsideEx zoneUrbanEx []).2 = [] ∧
    (checkZoneForPoint pointOutsideEx
      (checkZoneForPoint pointOutsideEx zoneUrbanEx []).1 []).2 = [] := by
  decide

/-! ## C6 — request validation -/

/-- C6 (amended): a request with a falsy `droneId` or missing `flightPlan`
yields a FAILED decision carrying the request's `droneId` and the reason
"Invalid request: droneId and flightPlan are required.", with no external
collaborator contacted (no zones fetch, no submission). -/
theorem preAuthorization_validation (env : PreAuthEnv) (request : PreAuthRequest)
    (h : validationFails request = true) :
    preAuthorization env request =
      (.failed request.droneId
        "Invalid request: droneId and flightPlan are required.",
       ⟨false, none⟩) := by
  rw [preAuthorization, h]
  simp [reasonOf]

/-- C6 (counterexample): on a request with missing `droneId` the reason is
"Invalid request: droneId and flightPlan are required.", which is not the
string "droneId and flightPlan are required" the claim states. -/
theorem preAuthorization_validation_cx :
    (preAuthorization envErrX reqNoId).1 =
      .failed none "Invalid request: droneId and flightPlan are required." ∧
    "Invalid request: droneId and flightPlan are required." ≠
      "droneId and flightPlan are required" := by
  exact ⟨by decide, by decide⟩

/-- Witness for C6 at the concrete request with missing `droneId`. -/
theorem preAuthorization_validation_witness :
    validationFails reqNoId = true ∧
    preAuthorization envErrX reqNoId =
      (.failed none "Invalid request: droneId and flightPlan are required.",
       ⟨false, none⟩) :=
  ⟨by decide, preAuthorization_validation envErrX reqNoId (by decide)⟩

/-! ## C2 — exceptions become FAILED decisions -/

/-- C2 (amended): `preAuthorization` always returns a decision (either the
authority's payload or a FAILED object carrying the request's droneId), and
every exception thrown during validation, characterization or the external
permission-check call is converted into a FAILED decision whose reason is the
error's message — except that an empty message is replaced by
"Unknown error" (`error.message || 'Unknown error'`). -/
theorem preAuthorization_catches_errors (env : PreAuthEnv) (request : PreAuthRequest) :
    ((∃ d, (preAuthorization env request).1 = .success d) ∨
      ∃ r, (preAuthorization env request).1 = .failed request.droneId r) ∧
    (∀ e, validationFails request = false → env.zonesFetch = .error e →
      (preAuthorization env request).1 = .failed request.droneId (reasonOf e)) ∧
    (∀ e zonesLimits, validationFails request = false →
      env.zonesFetch = .ok zonesLimits →
      env.permissionCheck (submittedCharacteristics zonesLimits request) = .error e →
      (preAuthorization env request).1 = .failed request.droneId (reasonOf e)) := by
  refine ⟨?_, ?_, ?_⟩
  · by_cases hv : validationFails request = true
    · right
      refine ⟨reasonOf "Invalid request: droneId and flightPlan are required.", ?_⟩
      rw [preAuthorization, hv]
      simp
    · have hv2 : validationFails request = false := by
        simpa using hv
      cases hz : env.zonesFetch with
      | error e => right; exact ⟨reasonOf e, by simp [preAuthorization, hv2, hz]⟩
      | ok zl =>
        cases hp : env.permissionCheck (submittedCharacteristics zl request) with
        | error e => right; exact ⟨reasonOf e, by simp [preAuthorization, hv2, hz, hp]⟩
        | ok d => left; exact ⟨d, by simp [preAuthorization, hv2, hz, hp]⟩
  · intro e hv hz
    simp [preAuthorization, hv, hz]
  · intro e zl hv hz hp
    simp [preAuthorization, hv, hz, hp]

/-- C2 (counterexample): when the permission-check call rejects with an EMPTY
message, the returned reason is "Unknown error", not the triggering error's
message — refuting the claim's universal "reason equals the triggering
error's message". -/
theorem preAuthorization_emptyMessage_cx :
    envEmptyMsg.permissionCheck (submittedCharacteristics [] reqD1) = .error "" ∧
    (preAuthorization envEmptyMsg reqD1).1 = .failed (some "d1") "Unknown error" ∧
    "Unknown error" ≠ "" := by
  refine ⟨rfl, by decide, by decide⟩

/-- Witness for C2: the permission-check call rejecting with message
"Network error" produces exactly a FAILED decision with reason
"Network error". -/
theorem preAuthorization_catches_errors_witness :
    validationFails reqD1 = false ∧
    (preAuthorization envNet reqD1).1 = .failed (some "d1") "Network error" := by
  constructor
  · decide
  · have h := (preAuthorization_catches_errors envNet reqD1).2.2 "Network error" []
      (by decide) rfl rfl
    simpa [reqD1, reasonOf] using h

/-! ## C5 — default zone policy -/

/-- C5: an empty characterized zone set is replaced by exactly
`[ZoneType.RESTRICTED]` before submission (and a non-empty zone set is
submitted unchanged), both in `preAuthorization` and in the scheduler's
flight-plan construction; the zone set stored with an authorized flight plan
equals the defaulted set, and the submitted set is never empty. -/
theorem defaultZonePolicy :
    (∀ zonesLimits request,
      ((getRouteCharacteristics zonesLimits request).zones = [] →
        submittedCharacteristics zonesLimits request =
          { getRouteCharacteristics zonesLimits request with
              zones := [some .restricted] }) ∧
      ((getRouteCharacteristics zonesLimits request).zones ≠ [] →
        submittedCharacteristics zonesLimits request =
          getRouteCharacteristics zonesLimits request) ∧
      (submittedCharacteristics zonesLimits request).zones ≠ []) ∧
    (∀ env request zonesLimits, env.zonesFetch = .ok zonesLimits →
      validationFails request = false →
      (preAuthorization env request).2.submitted =
        some (submittedCharacteristics zonesLimits request)) ∧
    (∀ env routeGen newPlanId now drones droneIndex attempt out,
      schedulerAttempt env routeGen newPlanId now drones droneIndex attempt =
        some out →
      (out.routeCharacteristics.zones = [] →
        out.flightPlanObj.zones = [some .restricted]) ∧
      (out.routeCharacteristics.zones ≠ [] →
        out.flightPlanObj.zones = out.routeCharacteristics.zones) ∧
      (∀ r, out.stored = some r → r.zones = out.flightPlanObj.zones)) := by
  refine ⟨?_, ?_, ?_⟩
  · intro zl request
    refine ⟨?_, ?_, ?_⟩
    · intro h
      simp [submittedCharacteristics, h]
    · intro h
      have hp : 0 < (getRouteCharacteristics zl request).zones.length :=
        List.length_pos.mpr h
      simp [submittedCharacteristics, hp]
    · by_cases h : (getRouteCharacteristics zl request).zones = []
      · simp [submittedCharacteristics, h]
      · have hp : 0 < (getRouteCharacteristics zl request).zones.length :=
          List.length_pos.mpr h
        simpa [submittedCharacteristics, hp] using h
  · intro env request zl hz hv
    cases hp : env.permissionCheck (submittedCharacteristics zl request) with
    | error e => simp [preAuthorization, hv, hz, hp]
    | ok d => simp [preAuthorization, hv, hz, hp]
  · intro env routeGen newPlanId now drones droneIndex attempt out hRun
    simp only [schedulerAttempt] at hRun
    cases hSel : drones.get? droneIndex with
    | none => rw [hSel] at hRun; cases hRun
    | some drone =>
      cases hLast : drones.get? (drones.length - 1) with
      | none => rw [hSel, hLast] at hRun; cases hRun
      | some lastDrone =>
        rw [hSel, hLast] at hRun
        cases hz : env.zonesFetch with
        | error e => rw [hz] at hRun; cases hRun
        | ok zl =>
          rw [hz] at hRun
          simp only [Option.some.injEq] at hRun
          subst hRun
          refine ⟨?_, ?_, ?_⟩
          · intro h
            simp_all
          · intro h
            have hp : 0 < _ := List.length_pos.mpr h
            simp_all
          · intro r hr
            simp only at hr
            split at hr
            next d hd =>
              split at hr
              · cases hr
                rfl
              · cases hr
            next => cases hr

/-- Witness for C5: a route meeting no zone is submitted with zone set
`[RESTRICTED]`, and that is what the trace of a concrete run shows. -/
theorem defaultZonePolicy_witness :
    (getRouteCharacteristics [] reqD1).zones = [] ∧
    (submittedCharacteristics [] reqD1).zones = [some .restricted] ∧
    (preAuthorization envNet reqD1).2.submitted =
      some (submittedCharacteristics [] reqD1) := by
  refine ⟨by decide, ?_, ?_⟩
  · have h := ((defaultZonePolicy).1 [] reqD1).1 (by decide)
    simp [h]
  · exact (defaultZonePolicy).2.1 envNet reqD1 [] rfl (by decide)

/-! ## C9 — the scheduler submits and stores the LAST drone's id -/

/-- C9: every scheduler authorization attempt builds its flight-plan object
with `drones[drones.length - 1]._id` — both as submitted to
`preAuthorization` and, on approval, in the stored record — while the route
generator was invoked with the permitted zones of the randomly selected
`drones[droneIndex]`. -/
theorem schedulerAttempt_lastDroneId
    (env : PreAuthEnv) (routeGen : List ZoneType → Bool → List Position)
    (newPlanId : String) (now : Int) (drones : List Drone)
    (droneIndex : Nat) (attempt : Nat) (drone lastDrone : Drone)
    (out : AttemptOutcome)
    (hSel : drones.get? droneIndex = some drone)
    (hLast : drones.get? (drones.length - 1) = some lastDrone)
    (hRun : schedulerAttempt env routeGen newPlanId now drones droneIndex attempt =
      some out) :
    out.flightPlanObj.droneId = lastDrone._id ∧
    out.genPermittedZones = drone.permittedZones ∧
    ∀ r, out.stored = some r → r.droneId = lastDrone._id := by
  simp only [schedulerAttempt] at hRun
  rw [hSel, hLast] at hRun
  cases hz : env.zonesFetch with
  | error e => rw [hz] at hRun; cases hRun
  | ok zl =>
    rw [hz] at hRun
    simp only [Option.some.injEq] at hRun
    subst hRun
    refine ⟨rfl, rfl, ?_⟩
    intro r hr
    simp only at hr
    split at hr
    next d hd =>
      split at hr
      · cases hr
        rfl
      · cases hr
    next => cases hr

/-- Route, generator, drones and an approving environment for the C9
witness. -/
def routeEx : List Position := [⟨1, 1, 100⟩]

/-- A constant route generator. -/
def genConstEx : List ZoneType → Bool → List Position := fun _ _ => routeEx

/-- The first mock drone. -/
def droneAEx : Drone := ⟨"1", "SN-A", [.urban, .rural]⟩

/-- The second (last added) mock drone. -/
def droneBEx : Drone := ⟨"2", "SN-B", [.urban, .rural]⟩

/-- An environment whose permission authority approves everything. -/
def envApprove : PreAuthEnv :=
  ⟨.ok [], fun rc => .ok ⟨rc.droneId, some .APPROVED, some ""⟩⟩

/-- The outcome of the concrete attempt used by the C9 witness. -/
def attemptOutEx : AttemptOutcome :=
  { genPermittedZones := [.urban, .rural]
    genValid := true
    routeCharacteristics := ⟨some "1", [], 100⟩
    flightPlanObj := ⟨"2", routeEx, 0, 1800, [some .restricted]⟩
    decision := .success ⟨some "2", some .APPROVED, some ""⟩
    stored := some ⟨"fp1", "2", [⟨1, 1, 100, false⟩], 0, 1800, false,
      [some .restricted]⟩ }

/-- Witness for C9: with drones `["1", "2"]` and random index 0, the stored
plan carries drone id "2" although the route was generated from drone "1". -/
theorem schedulerAttempt_lastDroneId_witness :
    schedulerAttempt envApprove genConstEx "fp1" 0 [droneAEx, droneBEx] 0 0 =
      some attemptOutEx ∧
    attemptOutEx.flightPlanObj.droneId = droneBEx._id ∧
    attemptOutEx.genPermittedZones = droneAEx.permittedZones ∧
    ∀ r, attemptOutEx.stored = some r → r.droneId = droneBEx._id := by
  have h := schedulerAttempt_lastDroneId envApprove genConstEx "fp1" 0
    [droneAEx, droneBEx] 0 0 droneAEx droneBEx attemptOutEx rfl rfl (by decide)
  exact ⟨by decide, h⟩

/-! ## C4 — waypoints are marked reached strictly in route order -/

/-- Waypoint completion order: no waypoint is reached while its predecessor
is unreached (adjacent-pair formulation of the claim). -/
def reachedInOrderB : List RoutePoint → Bool
  | [] => true
  | [_] => true
  | a :: b :: rest => (!b.finished || a.finished) && reachedInOrderB (b :: rest)

/-- The store the per-plan step loop left behind. -/
def StepResult.getDb : StepResult → DB
  | .toNextPlan db _ => db
  | .stopTick db _ => db
  | .failTick _ db _ => db

theorem reachedInOrderB_tail {a : RoutePoint} {l : List RoutePoint}
    (h : reachedInOrderB (a :: l) = true) : reachedInOrderB l = true := by
  cases l with
  | nil => rfl
  | cons b rest =>
    have := (Bool.and_eq_true _ _).mp h
    exact this.2

theorem reachedInOrderB_cons_of_head {a : RoutePoint} {l : List RoutePoint}
    (ha : a.finished = true) (hl : reachedInOrderB l = true) :
    reachedInOrderB (a :: l) = true := by
  cases l with
  | nil => rfl
  | cons b rest => simp [reachedInOrderB, ha, hl]

theorem reachedInOrderB_mark_head {a : RoutePoint} {l : List RoutePoint}
    (h : reachedInOrderB (a :: l) = true) :
    reachedInOrderB ({ a with finished := true } :: l) = true := by
  cases l with
  | nil => rfl
  | cons b rest =>
    have := (Bool.and_eq_true _ _).mp h
    simp [reachedInOrderB, this.2]

/-- Marking the FIRST unreached waypoint (the operation the telemetry loop
performs) preserves in-order completion. -/
theorem reachedInOrderB_set_mark :
    ∀ (path : List RoutePoint) (m : Nat) (pt : RoutePoint),
      findIndexNotFinished path = some m →
      path[m]? = some pt →
      reachedInOrderB path = true →
      reachedInOrderB (path.set m { pt with finished := true }) = true := by
  intro path
  induction path with
  | nil => intro m pt h; cases h
  | cons a t ih =>
    intro m pt hIdx hGet hOrd
    cases ha : a.finished with
    | true =>
      rw [findIndexNotFinished] at hIdx
      cases hft : findIndexNotFinished t with
      | none => rw [ha, hft] at hIdx; simp at hIdx
      | some m0 =>
        rw [ha, hft] at hIdx
        simp at hIdx
        subst hIdx
        have hGet2 : t[m0]? = some pt := by
          simpa using hGet
        have hOrd2 : reachedInOrderB t = true := reachedInOrderB_tail hOrd
        have hmarked := ih m0 pt hft hGet2 hOrd2
        simpa [List.set] using reachedInOrderB_cons_of_head ha hmarked
    | false =>
      rw [findIndexNotFinished, ha] at hIdx
      simp at hIdx
      subst hIdx
      have hpt : a = pt := by simpa using hGet
      subst hpt
      simpa [List.set] using reachedInOrderB_mark_head hOrd

/-- Every flight plan in the store has its waypoints reached in order. -/
def PlansOrdered (db : DB) : Prop :=
  ∀ p ∈ db.flightPlans, reachedInOrderB p.path = true

theorem plansOrdered_set {db : DB} (idx : Nat) (q : Route)
    (hdb : PlansOrdered db) (hq : reachedInOrderB q.path = true) :
    PlansOrdered { db with flightPlans := db.flightPlans.set idx q } := by
  intro p hp
  rcases List.mem_or_eq_of_mem_set hp with h | rfl
  · exact hdb p h
  · exact hq

theorem telemetrySteps_preserves (env : TelemetryEnv) (idx : Nat) :
    ∀ (fuel i : Nat) (db : DB) (trace : List TelemetryEvent),
      PlansOrdered db →
      PlansOrdered (telemetrySteps env idx fuel i db trace).getDb := by
  intro fuel
  induction fuel with
  | zero =>
    intro i db trace h
    simpa [telemetrySteps, StepResult.getDb] using h
  | succ fuel ih =>
    intro i db trace h
    cases hplan : db.flightPlans[idx]? with
    | none => simpa [telemetrySteps, hplan, StepResult.getDb] using h
    | some plan =>
      have hmem : plan ∈ db.flightPlans := List.getElem?_mem hplan
      cases hdrone : db.drones.find? (fun d => decide (d._id = plan.droneId)) with
      | none => simpa [telemetrySteps, hplan, hdrone, StepResult.getDb] using h
      | some drone =>
        cases hfind : findIndexNotFinished plan.path with
        | none =>
          have h2 : PlansOrdered
              { db with flightPlans :=
                  db.flightPlans.set idx { plan with finished := true } } :=
            plansOrdered_set idx _ h (h plan hmem)
          cases hok : env.completionOk with
          | true =>
            simpa [telemetrySteps, hplan, hdrone, hfind, hok,
              StepResult.getDb] using h2
          | false =>
            simpa [telemetrySteps, hplan, hdrone, hfind, hok,
              StepResult.getDb] using h2
        | some routePoint =>
          cases hget : plan.path[routePoint]? with
          | none =>
            simpa [telemetrySteps, hplan, hdrone, hfind, hget,
              StepResult.getDb] using h
          | some pt =>
            have hq : reachedInOrderB
                (plan.path.set routePoint { pt with finished := true }) = true :=
              reachedInOrderB_set_mark _ _ _ hfind hget (h plan hmem)
            have h2 : PlansOrdered { db with flightPlans := db.flightPlans.set idx { plan with path := plan.path.set routePoint { pt with finished := true } } } :=
              plansOrdered_set idx _ h hq
            by_cases hi : i % 30 = 0
            · cases hv : env.violationOk with
              | true =>
                simpa [telemetrySteps, hplan, hdrone, hfind, hget, hi, hv]
                  using ih (i + 1) _ _ h2
              | false =>
                simpa [telemetrySteps, hplan, hdrone, hfind, hget, hi, hv,
                  StepResult.getDb] using h
            · simpa [telemetrySteps, hplan, hdrone, hfind, hget, hi]
                using ih (i + 1) _ _ h2

theorem telemetryPlans_preserves (env : TelemetryEnv) :
    ∀ (idxs : List Nat) (db : DB) (trace : List TelemetryEvent),
      PlansOrdered db →
      PlansOrdered (telemetryPlans env idxs db trace).getDb := by
  intro idxs
  induction idxs with
  | nil =>
    intro db trace h
    simpa [telemetryPlans, TickOutcome.getDb] using h
  | cons idx rest ih =>
    intro db trace h
    rw [telemetryPlans]
    cases hplan : db.flightPlans.get? idx with
    | none => exact ih db trace h
    | some plan =>
      by_cases hlen : plan.path.length = 0
      · simpa [hlen] using ih db trace h
      · have hstep := telemetrySteps_preserves env idx 40 0 db trace h
        simp only [hlen, if_neg]
        cases hres : telemetrySteps env idx 40 0 db trace with
        | toNextPlan db2 tr2 =>
          rw [hres] at hstep
          exact ih db2 tr2 hstep
        | stopTick db2 tr2 =>
          rw [hres] at hstep
          simpa [TickOutcome.getDb, StepResult.getDb] using hstep
        | failTick msg db2 tr2 =>
          rw [hres] at hstep
          simpa [TickOutcome.getDb, StepResult.getDb] using hstep

theorem reachedInOrderB_of_all_unfinished :
    ∀ l : List RoutePoint, (∀ x ∈ l, x.finished = false) →
      reachedInOrderB l = true := by
  intro l
  induction l with
  | nil => intro; rfl
  | cons a t ih =>
    intro hall
    cases t with
    | nil => rfl
    | cons b rest =>
      have hb : b.finished = false := hall b (by simp)
      have ht := ih fun x hx => hall x (List.mem_cons_of_mem _ hx)
      simp [reachedInOrderB, hb, ht]

/-- C4: the telemetry tick preserves in-order waypoint completion for every
flight plan in the store — it never marks waypoint k+1 reached while
waypoint k is unreached — and plans created by `authorizeFlightPlan` start
with all waypoints unreached (hence in order). -/
theorem waypointOrderInvariant (env : TelemetryEnv) (db : DB)
    (h : ∀ p ∈ db.flightPlans, reachedInOrderB p.path = true) :
    (∀ p ∈ (simulateDroneTelemetry env db).getDb.flightPlans,
      reachedInOrderB p.path = true) ∧
    (∀ newId fp, reachedInOrderB (authorizeFlightPlan newId fp).path = true) := by
  constructor
  · dsimp only [simulateDroneTelemetry]
    split
    · simpa [TickOutcome.getDb] using h
    · exact telemetryPlans_preserves env _ db [] h
  · intro newId fp
    apply reachedInOrderB_of_all_unfinished
    intro x hx
    simp only [authorizeFlightPlan, List.mem_map] at hx
    obtain ⟨p, _, rfl⟩ := hx
    rfl

/-! ## C8 — a failed emission aborts the telemetry tick -/

/-- A drone matching the fixture plans below. -/
def droneTelEx : Drone := ⟨"1", "SN-T", [.urban, .rural]⟩

/-- A plan with two unreached waypoints. -/
def planAEx : Route :=
  ⟨"p1", "1", [⟨1, 1, 100, false⟩, ⟨2, 2, 100, false⟩], 0, 1800, false,
    [some .restricted]⟩

/-- A second, independent plan with one unreached waypoint. -/
def planBEx : Route :=
  ⟨"p2", "1", [⟨3, 3, 100, false⟩], 0, 1800, false, [some .restricted]⟩

/-- A store holding both plans. -/
def dbTelEx : DB := ⟨[droneTelEx], [planAEx, planBEx]⟩

/-- An environment where the violations/report POST fails (and the completion
POST would succeed). -/
def envViolFail : TelemetryEnv := ⟨false, true⟩

/-- C8 (code bug): when the very first violation emission fails,
`sendViolation`'s rethrown exception propagates out of the telemetry tick:
the tick ends in an error with NO waypoint of any plan advanced and the
second plan untouched, instead of logging and proceeding to the next
step/plan/drone as the claim requires. -/
theorem telemetryTick_halts_on_violation_failure :
    simulateDroneTelemetry envViolFail dbTelEx =
      .err "Failed to send violation to backend" dbTelEx [] ∧
    dbTelEx.flightPlans.length = 2 ∧
    (∀ p ∈ dbTelEx.flightPlans, p.finished = false) ∧
    (∀ p ∈ dbTelEx.flightPlans, ∀ pt ∈ p.path, pt.finished = false) := by
  decide

/-! ## C10 — plan completion returns from the entire tick -/

/-- C10: whenever the telemetry loop reaches a plan with no unreached
waypoint (and its drone exists and the completion POST succeeds), it marks
exactly that plan finished, emits exactly one completion record, and returns
from the entire tick — every remaining plan index is left unprocessed and no
waypoint of any plan is marked. -/
theorem telemetry_completion_stops_tick
    (env : TelemetryEnv) (db : DB) (idx : Nat) (rest : List Nat)
    (trace : List TelemetryEvent) (plan : Route) (drone : Drone)
    (hPlan : db.flightPlans.get? idx = some plan)
    (hPath : plan.path.length ≠ 0)
    (hAll : findIndexNotFinished plan.path = none)
    (hDrone : db.drones.find? (fun d => decide (d._id = plan.droneId)) = some drone)
    (hOk : env.completionOk = true) :
    telemetryPlans env (idx :: rest) db trace =
      .ok { db with flightPlans :=
              db.flightPlans.set idx { plan with finished := true } }
        (trace ++ [.completion plan._id plan.droneId]) := by
  have hstep : telemetrySteps env idx 40 0 db trace =
      .stopTick { db with flightPlans :=
          db.flightPlans.set idx { plan with finished := true } }
        (trace ++ [.completion plan._id plan.droneId]) := by
    show telemetrySteps env idx (39 + 1) 0 db trace = _
    simp only [telemetrySteps, hPlan, hDrone, hAll, hOk]
    simp
  rw [telemetryPlans, hPlan]
  dsimp only
  rw [if_neg hPath, hstep]

/-- A plan whose single waypoint is already reached. -/
def planDoneEx : Route :=
  ⟨"p3", "1", [⟨1, 1, 100, true⟩], 0, 1800, false, [some .restricted]⟩

/-- Store for the C10 witness: the completed plan first, another plan after
it. -/
def dbDoneEx : DB := ⟨[droneTelEx], [planDoneEx, planBEx]⟩

/-- Witness for C10 at a concrete store: the tick finishes plan "p3", emits
its completion, and plan "p2" (index 1, still pending) is never advanced. -/
theorem telemetry_completion_stops_tick_witness :
    telemetryPlans ⟨true, true⟩ [0, 1] dbDoneEx [] =
      .ok { dbDoneEx with flightPlans :=
              dbDoneEx.flightPlans.set 0 { planDoneEx with finished := true } }
        [.completion "p3" "1"] := by
  have h := telemetry_completion_stops_tick ⟨true, true⟩ dbDoneEx 0 [1] []
    planDoneEx droneTelEx rfl (by decide) rfl rfl rfl
  simpa using h

/-- Witness for C4 at a concrete store: both fixture plans are in order, and
they remain so after a full successful tick. -/
theorem waypointOrderInvariant_witness :
    (∀ p ∈ dbTelEx.flightPlans, reachedInOrderB p.path = true) ∧
    (∀ p ∈ (simulateDroneTelemetry ⟨true, true⟩ dbTelEx).getDb.flightPlans,
      reachedInOrderB p.path = true) :=
  ⟨by decide, (waypointOrderInvariant ⟨true, true⟩ dbTelEx (by decide)).1⟩

/-! ## Ray-casting analysis

`inRingAux` is characterized by two order-independent quantities over the edge
list: whether some edge carries the query point on its boundary, and the
parity of the crossing tests. -/

/-- `onBoundaryEdge` applied to a packaged edge. -/
def edgeOnB (px py : ℚ) (e : (ℚ × ℚ) × (ℚ × ℚ)) : Bool :=
  onBoundaryEdge px py e.1.1 e.1.2 e.2.1 e.2.2

/-- `intersectEdge` applied to a packaged edge. -/
def edgeInt (px py : ℚ) (e : (ℚ × ℚ) × (ℚ × ℚ)) : Bool :=
  intersectEdge px py e.1.1 e.1.2 e.2.1 e.2.2

/-- Crossing parity of an edge list. -/
def ringParity (px py : ℚ) (es : List ((ℚ × ℚ) × (ℚ × ℚ))) : Bool :=
  es.foldr (fun e b => edgeInt px py e ^^ b) false

theorem ringParity_cons (px py : ℚ) (e : (ℚ × ℚ) × (ℚ × ℚ))
    (rest : List ((ℚ × ℚ) × (ℚ × ℚ))) :
    ringParity px py (e :: rest) = (edgeInt px py e ^^ ringParity px py rest) :=
  rfl

theorem inRingAux_eq (px py : ℚ) :
    ∀ (es : List ((ℚ × ℚ) × (ℚ × ℚ))) (acc : Bool),
      inRingAux px py es acc =
        (es.any (edgeOnB px py) || (acc ^^ ringParity px py es)) := by
  intro es
  induction es with
  | nil => intro acc; simp [inRingAux, ringParity]
  | cons e rest ih =>
    intro acc
    obtain ⟨⟨xi, yi⟩, xj, yj⟩ := e
    rw [inRingAux]
    by_cases hb : onBoundaryEdge px py xi yi xj yj = true
    · rw [if_pos hb]
      have hOnB : edgeOnB px py ((xi, yi), (xj, yj)) = true := hb
      simp [List.any_cons, hOnB]
    · have hb2 : onBoundaryEdge px py xi yi xj yj = false := by
        simpa using hb
      rw [if_neg hb]
      rw [ih]
      have hOnB : edgeOnB px py ((xi, yi), (xj, yj)) = false := hb2
      rw [ringParity_cons]
      cases hi : intersectEdge px py xi yi xj yj with
      | true =>
        have hInt : edgeInt px py ((xi, yi), (xj, yj)) = true := hi
        simp only [List.any_cons, hOnB, hInt, Bool.false_or]
        cases acc <;> cases hP : ringParity px py rest <;>
          simp [hP]
      | false =>
        have hInt : edgeInt px py ((xi, yi), (xj, yj)) = false := hi
        simp [List.any_cons, hOnB, hInt]

theorem any_perm {α : Type} {es es2 : List α} (h : es.Perm es2) (p : α → Bool) :
    es.any p = es2.any p := by
  cases hA : es.any p with
  | true =>
    rw [List.any_eq_true] at hA
    obtain ⟨x, hx, hpx⟩ := hA
    exact (List.any_eq_true.mpr ⟨x, h.mem_iff.mp hx, hpx⟩).symm
  | false =>
    rw [List.any_eq_false] at hA
    exact ((List.any_eq_false).mpr fun x hx => hA x (h.mem_iff.mpr hx)).symm

theorem ringParity_perm (px py : ℚ) {es es2 : List ((ℚ × ℚ) × (ℚ × ℚ))}
    (h : es.Perm es2) : ringParity px py es = ringParity px py es2 := by
  haveI : LeftCommutative fun (e : (ℚ × ℚ) × (ℚ × ℚ)) (b : Bool) =>
      edgeInt px py e ^^ b :=
    ⟨fun a b c => by
      cases edgeInt px py a <;> cases edgeInt px py b <;> cases c <;> rfl⟩
  exact h.foldr_eq false

/-- An edge strictly above the query point is neither on-boundary nor
crossing. -/
theorem edge_miss_below (px py xi yi xj yj : ℚ) (hyi : py < yi) (hyj : py < yj) :
    onBoundaryEdge px py xi yi xj yj = false ∧
    intersectEdge px py xi yi xj yj = false := by
  constructor
  · simp only [onBoundaryEdge, decide_eq_false_iff_not]
    rintro ⟨-, -, hc⟩
    nlinarith
  · simp only [intersectEdge, decide_eq_false_iff_not]
    rintro ⟨hne, -⟩
    exact hne ⟨fun _ => hyj, fun _ => hyi⟩

/-! ## C3 — invalid mock flight plans and the restricted target zone -/

/-- An active restricted zone far away (latitudes 50–51, longitudes 10–11)
from the generator's fallback region (latitudes 40.7–40.8). -/
def zoneRestrictedEx : Zone :=
  { _id := "zr", name := "Restricted Test Zone", zoneType := "RESTRICTED"
    boundaries := [⟨50, 10⟩, ⟨51, 10⟩, ⟨51, 11⟩, ⟨50, 11⟩]
    maxAltitude := 120, minAltitude := 0, isActive := true }

/-- C3 (code bug): for `valid = false` the target-zone predicate is
`permittedZones.includes(RESTRICTED) && z.isActive` — it never examines the
zone's own classification.  With the scheduler's drone zones
`[urban, rural]` no target zone is found even though an active restricted
zone exists, so the first point is the fixed-region fallback point, which
lies outside the restricted zone's polygon for EVERY outcome of the random
draws; and when `permittedZones` does contain `restricted`, the first ACTIVE
zone of any classification is selected. -/
theorem generateMockFlightPlan_invalid_firstPoint
    (r1 r2 r3 : ℚ) (h1a : 0 ≤ r1) (h1b : r1 < 1) (h2a : 0 ≤ r2) (h2b : r2 < 1)
    (h3a : 0 ≤ r3) (h3b : r3 < 1) (zp : ℚ × ℚ) (rAlt : ℚ) :
    selectTargetZone [zoneRestrictedEx] [.urban, .rural] false = none ∧
    zoneRestrictedEx.isActive = true ∧
    zoneTypeLookup zoneRestrictedEx.zoneType = some .restricted ∧
    zonePolygonContains zoneRestrictedEx
      (generateFirstPoint [zoneRestrictedEx] [.urban, .rural] false
        ⟨r1, r2, r3, zp, rAlt⟩) = false ∧
    selectTargetZone [zoneUrbanEx, zoneRestrictedEx] [.restricted] false =
      some zoneUrbanEx := by
  have hsel : selectTargetZone [zoneRestrictedEx] [.urban, .rural] false = none := by
    decide
  refine ⟨hsel, rfl, rfl, ?_, by decide⟩
  have hpoint : generateFirstPoint [zoneRestrictedEx] [.urban, .rural] false
      ⟨r1, r2, r3, zp, rAlt⟩ =
      { lat := r1 * (1/10) + 407/10, lon := r2 * (1/10) - 74, alt := r3 * 50 + 100 } := by
    rw [generateFirstPoint, hsel]
  rw [hpoint]
  have hedges : ringEdges (normRing (ringOf (closeOnce zoneRestrictedEx.boundaries))) =
      [((10, 50), (11, 50)), ((10, 51), (10, 50)),
        ((11, 51), (10, 51)), ((11, 50), (11, 51))] := by
    decide
  rw [zonePolygonContains]
  dsimp only
  rw [pipRing, hedges, inRingAux_eq]
  have h50 : r1 * (1/10) + 407/10 < 50 := by nlinarith
  have h51 : r1 * (1/10) + 407/10 < 51 := by nlinarith
  have e1 := edge_miss_below (r2 * (1/10) - 74) (r1 * (1/10) + 407/10) 10 50 11 50 h50 h50
  have e2 := edge_miss_below (r2 * (1/10) - 74) (r1 * (1/10) + 407/10) 10 51 10 50 h51 h50
  have e3 := edge_miss_below (r2 * (1/10) - 74) (r1 * (1/10) + 407/10) 11 51 10 51 h51 h51
  have e4 := edge_miss_below (r2 * (1/10) - 74) (r1 * (1/10) + 407/10) 11 50 11 51 h50 h51
  simp only [List.any_cons, List.any_nil, ringParity, List.foldr_cons,
    List.foldr_nil, edgeOnB, edgeInt, e1.1, e1.2, e2.1, e2.2, e3.1, e3.2,
    e4.1, e4.2, Bool.or_false, Bool.or_self, Bool.false_or, Bool.xor_false,
    Bool.false_xor]

/-- Witness for C3 at the random draws 0: the fallback first point
(40.7, −74) is generated and is not inside the active restricted zone. -/
theorem generateMockFlightPlan_invalid_firstPoint_witness :
    selectTargetZone [zoneRestrictedEx] [.urban, .rural] false = none ∧
    zoneRestrictedEx.isActive = true ∧
    zoneTypeLookup zoneRestrictedEx.zoneType = some .restricted ∧
    zonePolygonContains zoneRestrictedEx
      (generateFirstPoint [zoneRestrictedEx] [.urban, .rural] false
        ⟨0, 0, 0, (0, 0), 0⟩) = false ∧
    selectTargetZone [zoneUrbanEx, zoneRestrictedEx] [.restricted] false =
      some zoneUrbanEx :=
  generateMockFlightPlan_invalid_firstPoint 0 0 0 (by norm_num) (by norm_num)
    (by norm_num) (by norm_num) (by norm_num) (by norm_num) (0, 0) 0

/-! ## C7 — order independence of the characterized zone set

The repeated in-place closing of zone boundaries makes the containment checks
stateful: the k-th check of a zone sees its boundary with k pushed closing
vertices.  The pushed vertices duplicate the first vertex, and the turf test
is invariant under them, so every check of a zone evaluates to the test on
the once-closed pristine boundary; from that the final zone set is the
order-irrelevant union over route points. -/

theorem padRing_zero (l : List α) : padRing l 0 = l := by
  cases l with
  | nil => rfl
  | cons a t => simp [padRing]

theorem padRing_succ_concat (a : α) (t : List α) (n : Nat) :
    padRing (a :: t) (n + 1) = padRing (a :: t) n ++ [a] := by
  simp [padRing, List.replicate_succ']

theorem padRing_cons_eq (a : α) (t : List α) (n : Nat) :
    padRing (a :: t) n = a :: (t ++ List.replicate n a) := by
  simp [padRing]

theorem ringOf_padRing (bs : List Coordinates) (m : Nat) :
    ringOf (padRing bs m) = padRing (ringOf bs) m := by
  cases bs with
  | nil => rfl
  | cons c t => simp [ringOf, padRing, List.map_append, List.map_replicate]

theorem closeOnce_padRing (bs : List Coordinates) (n : Nat) :
    closeOnce (padRing bs n) = padRing bs (n + 1) := by
  cases bs with
  | nil => rfl
  | cons c t =>
    rw [padRing_succ_concat, closeOnce]
    rw [padRing_cons_eq]
    rfl

theorem closeOnce_eq_padRing_one (bs : List Coordinates) :
    closeOnce bs = padRing bs 1 := by
  have h := closeOnce_padRing bs 0
  rwa [padRing_zero] at h

theorem normRing_padRing (a : ℚ × ℚ) (t : List (ℚ × ℚ)) (k : Nat) :
    normRing (padRing (a :: t) (k + 1)) = padRing (a :: t) k := by
  rw [padRing_succ_concat]
  rw [normRing]
  have hhead : (padRing (a :: t) k ++ [a]).head? = some a := by
    rw [padRing_cons_eq]
    rfl
  have hlast : (padRing (a :: t) k ++ [a]).getLast? = some a :=
    List.getLast?_concat _
  rw [hhead, hlast]
  simp

/-- The cyclic edge list of a nonempty ring starts with the edge from the
last vertex to the first. -/
theorem ringEdges_head (a : ℚ × ℚ) (t : List (ℚ × ℚ)) :
    ringEdges (a :: t) =
      (a, (a :: t).getLast (List.cons_ne_nil a t)) ::
        t.zip ((a :: t).dropLast) := by
  rw [ringEdges, List.getLast?_eq_getLast (a :: t) (List.cons_ne_nil a t)]
  rfl

/-- Appending a copy of the head vertex permutes the edge list up to one
extra degenerate edge. -/
theorem ringEdges_concat_perm (a : ℚ × ℚ) (t : List (ℚ × ℚ)) :
    (ringEdges ((a :: t) ++ [a])).Perm ((a, a) :: ringEdges (a :: t)) := by
  cases t with
  | nil =>
    have h : ringEdges ([a] ++ [a]) = (a, a) :: ringEdges [a] := rfl
    rw [h]
  | cons b t2 =>
    have hsne : b :: t2 ≠ [] := List.cons_ne_nil b t2
    have hL := List.dropLast_append_getLast hsne
    have hlast : ((a :: b :: t2) ++ [a]).getLast? = some a := List.getLast?_concat _
    have hdrop : ((a :: b :: t2) ++ [a]).dropLast = a :: b :: t2 :=
      @List.dropLast_concat _ (a :: b :: t2) a
    rw [ringEdges, hlast]
    dsimp only
    rw [hdrop]
    rw [ringEdges_head]
    have hgl : (a :: b :: t2).getLast (List.cons_ne_nil a (b :: t2)) =
        (b :: t2).getLast hsne := by
      exact List.getLast_cons hsne
    have hdl : (a :: b :: t2).dropLast = a :: (b :: t2).dropLast := by
      rfl
    rw [hgl, hdl]
    -- left side: zip (a :: ((b :: t2) ++ [a])) (a :: a :: b :: t2)
    have hcons : (a :: b :: t2) ++ [a] = a :: ((b :: t2) ++ [a]) := rfl
    rw [hcons, List.zip_cons_cons]
    -- decompose a :: b :: t2 as (a :: dropLast (b :: t2)) ++ [getLast]
    have hsplit : a :: b :: t2 = (a :: (b :: t2).dropLast) ++ [(b :: t2).getLast hsne] := by
      rw [List.cons_append, hL]
    have hlen : (b :: t2).length = (a :: (b :: t2).dropLast).length := by
      simp
    have hz : ((b :: t2) ++ [a]).zip (a :: b :: t2) =
        ((b :: t2).zip (a :: (b :: t2).dropLast)) ++
          [(a, (b :: t2).getLast hsne)] := by
      conv_lhs => rw [hsplit]
      rw [List.zip_append hlen]
      rfl
    rw [hz]
    exact List.Perm.cons _ (List.perm_append_singleton _ _)

/-- A degenerate edge never flips the crossing parity. -/
theorem edgeInt_deg (px py xa ya : ℚ) :
    edgeInt px py ((xa, ya), (xa, ya)) = false := by
  simp only [edgeInt, intersectEdge, decide_eq_false_iff_not]
  rintro ⟨hne, -⟩
  simp at hne

/-- A degenerate edge is on-boundary exactly at its vertex. -/
theorem edgeOnB_deg (px py xa ya : ℚ) :
    edgeOnB px py ((xa, ya), (xa, ya)) = true ↔ px = xa ∧ py = ya := by
  simp only [edgeOnB, onBoundaryEdge, decide_eq_true_eq]
  constructor
  · rintro ⟨-, h2, h3⟩
    have h0x : (xa - px) * (xa - px) = 0 := le_antisymm h2 (mul_self_nonneg _)
    have h0y : (ya - py) * (ya - py) = 0 := le_antisymm h3 (mul_self_nonneg _)
    have hx := mul_self_eq_zero.mp h0x
    have hy := mul_self_eq_zero.mp h0y
    constructor <;> linarith
  · rintro ⟨rfl, rfl⟩
    refine ⟨by ring, le_of_eq (by ring), le_of_eq (by ring)⟩

/-- Any edge whose current vertex is the query point is on-boundary. -/
theorem edgeOnB_head_vertex (px py xj yj : ℚ) :
    onBoundaryEdge px py px py xj yj = true := by
  simp only [onBoundaryEdge, decide_eq_true_eq]
  refine ⟨by ring, le_of_eq (by ring), le_of_eq (by ring)⟩

/-- One closing push of the head vertex does not change the ray-casting
verdict over the cyclic edge list. -/
theorem inRing_concat_head (px py : ℚ) (a : ℚ × ℚ) (t : List (ℚ × ℚ)) :
    inRingAux px py (ringEdges ((a :: t) ++ [a])) false =
      inRingAux px py (ringEdges (a :: t)) false := by
  obtain ⟨xa, ya⟩ := a
  rw [inRingAux_eq, inRingAux_eq]
  have hperm := ringEdges_concat_perm (xa, ya) t
  rw [any_perm hperm, ringParity_perm px py hperm]
  rw [List.any_cons, ringParity_cons, edgeInt_deg, Bool.false_xor]
  by_cases hpt : px = xa ∧ py = ya
  · obtain ⟨rfl, rfl⟩ := hpt
    have hdeg : edgeOnB px py ((px, py), (px, py)) = true :=
      (edgeOnB_deg px py px py).mpr ⟨rfl, rfl⟩
    have hhead : (ringEdges ((px, py) :: t)).any (edgeOnB px py) = true := by
      rw [ringEdges_head, List.any_cons]
      have : edgeOnB px py ((px, py),
          ((px, py) :: t).getLast (List.cons_ne_nil (px, py) t)) = true := by
        rw [edgeOnB]
        exact edgeOnB_head_vertex px py _ _
      rw [this]
      rfl
    rw [hdeg, hhead]
    rfl
  · have hdeg : edgeOnB px py ((xa, ya), (xa, ya)) = false := by
      cases h : edgeOnB px py ((xa, ya), (xa, ya)) with
      | false => rfl
      | true => exact absurd ((edgeOnB_deg px py xa ya).mp h) hpt
    rw [hdeg, Bool.false_or]

/-- Padding with extra closing vertices does not change the turf verdict. -/
theorem pipRing_padRing (px py : ℚ) (r : List (ℚ × ℚ)) (n : Nat) :
    pipRing (px, py) (padRing r (n + 1)) = pipRing (px, py) (padRing r 1) := by
  cases r with
  | nil => rfl
  | cons a t =>
    have base : ∀ m, inRingAux px py (ringEdges (padRing (a :: t) m)) false =
        inRingAux px py (ringEdges (a :: t)) false := by
      intro m
      induction m with
      | zero => rw [padRing_zero]
      | succ m ih =>
        rw [padRing_succ_concat]
        rw [padRing_cons_eq] at ih ⊢
        rw [inRing_concat_head px py a (t ++ List.replicate m a)]
        exact ih
    rw [pipRing, pipRing, normRing_padRing, normRing_padRing, padRing_zero]
    exact base n

/-- Evaluating the turf test on a zone boundary that has been closed `n + 1`
times equals the test on the once-closed pristine boundary. -/
theorem pip_closeOnce_pad (p : Position) (z0 : Zone) (n : Nat) :
    pipRing (p.lon, p.lat) (ringOf (closeOnce (padRing z0.boundaries n))) =
      zonePolygonContains z0 p := by
  rw [closeOnce_padRing, ringOf_padRing, zonePolygonContains,
    closeOnce_eq_padRing_one, ringOf_padRing]
  exact pipRing_padRing p.lon p.lat (ringOf z0.boundaries) n

/-- `z` is `z0` with some number of closing vertices pushed onto its
boundary. -/
def CloseVar (z0 z : Zone) : Prop :=
  ∃ n, z = { z0 with boundaries := padRing z0.boundaries n }

theorem closeVar_refl (z : Zone) : CloseVar z z :=
  ⟨0, by rw [padRing_zero]⟩

theorem closeVar_forall₂_refl : ∀ Z : List Zone, List.Forall₂ CloseVar Z Z
  | [] => List.Forall₂.nil
  | z :: Z => List.Forall₂.cons (closeVar_refl z) (closeVar_forall₂_refl Z)

/-- The per-zone check of `getRouteCharacteristics`: the zone stays a
close-variant of its pristine value, and membership in the accumulator
afterwards is membership before, or the zone's looked-up classification when
the zone is active and the pristine containment test holds. -/
theorem checkZoneForPoint_spec (p : Position) (z0 z : Zone)
    (acc : List (Option ZoneType)) (h : CloseVar z0 z) :
    CloseVar z0 (checkZoneForPoint p z acc).1 ∧
    ∀ c, c ∈ (checkZoneForPoint p z acc).2 ↔
      (c ∈ acc ∨ (z0.isActive = true ∧ zoneTypeLookup z0.zoneType = c ∧
        zonePolygonContains z0 p = true)) := by
  obtain ⟨n, rfl⟩ := h
  have hpipEq := pip_closeOnce_pad p z0 n
  have hpipEq2 : pipRing (p.lon, p.lat) (ringOf (padRing z0.boundaries (n + 1))) =
      zonePolygonContains z0 p := by
    rw [← closeOnce_padRing]
    exact hpipEq
  by_cases hact : z0.isActive = true
  · by_cases hmem : zoneTypeLookup z0.zoneType ∈ acc
    · have hres : checkZoneForPoint p
          { z0 with boundaries := padRing z0.boundaries n } acc =
          ({ z0 with boundaries := padRing z0.boundaries n }, acc) := by
        simp [checkZoneForPoint, hact, hmem]
      rw [hres]
      refine ⟨⟨n, rfl⟩, ?_⟩
      intro c
      constructor
      · exact Or.inl
      · rintro (hc | ⟨-, hc, -⟩)
        · exact hc
        · exact hc ▸ hmem
    · by_cases hcont : zonePolygonContains z0 p = true
      · have hres : checkZoneForPoint p
            { z0 with boundaries := padRing z0.boundaries n } acc =
            ({ z0 with boundaries := padRing z0.boundaries (n + 1) },
              acc ++ [zoneTypeLookup z0.zoneType]) := by
          simp [checkZoneForPoint, hact, hmem, hpipEq, hpipEq2, hcont,
            closeOnce_padRing]
        rw [hres]
        refine ⟨⟨n + 1, rfl⟩, ?_⟩
        intro c
        simp only [List.mem_append, List.mem_singleton]
        constructor
        · rintro (hc | hc)
          · exact Or.inl hc
          · exact Or.inr ⟨hact, hc.symm, hcont⟩
        · rintro (hc | ⟨-, hc, -⟩)
          · exact Or.inl hc
          · exact Or.inr hc.symm
      · have hcont2 : zonePolygonContains z0 p = false := by
          simpa using hcont
        have hres : checkZoneForPoint p
            { z0 with boundaries := padRing z0.boundaries n } acc =
            ({ z0 with boundaries := padRing z0.boundaries (n + 1) }, acc) := by
          simp [checkZoneForPoint, hact, hmem, hpipEq, hpipEq2, hcont2,
            closeOnce_padRing]
        rw [hres]
        refine ⟨⟨n + 1, rfl⟩, ?_⟩
        intro c
        constructor
        · exact Or.inl
        · rintro (hc | ⟨-, -, hc⟩)
          · exact hc
          · rw [hcont2] at hc; cases hc
  · have hact2 : z0.isActive = false := by simpa using hact
    have hres : checkZoneForPoint p
        { z0 with boundaries := padRing z0.boundaries n } acc =
        ({ z0 with boundaries := padRing z0.boundaries n }, acc) := by
      simp [checkZoneForPoint, hact2]
    rw [hres]
    refine ⟨⟨n, rfl⟩, ?_⟩
    intro c
    constructor
    · exact Or.inl
    · rintro (hc | ⟨hc, -, -⟩)
      · exact hc
      · rw [hact2] at hc; cases hc

/-- One route point against the whole zone list: the accumulated set grows by
exactly the classifications of the active zones containing the point. -/
theorem scanZones_spec (p : Position) :
    ∀ {Z0 Z : List Zone}, List.Forall₂ CloseVar Z0 Z →
    ∀ acc : List (Option ZoneType),
      List.Forall₂ CloseVar Z0 (scanZones p Z acc).1 ∧
      ∀ c, c ∈ (scanZones p Z acc).2 ↔
        (c ∈ acc ∨ ∃ z0 ∈ Z0, z0.isActive = true ∧
          zoneTypeLookup z0.zoneType = c ∧ zonePolygonContains z0 p = true) := by
  intro Z0 Z h
  induction h with
  | nil =>
    intro acc
    refine ⟨List.Forall₂.nil, ?_⟩
    intro c
    simp [scanZones]
  | cons hz hrest ih =>
    rename_i z0 z Z0t Zt
    intro acc
    obtain ⟨hvar1, hmem1⟩ := checkZoneForPoint_spec p z0 z acc hz
    obtain ⟨hvar2, hmem2⟩ := ih ((checkZoneForPoint p z acc).2)
    have hfst : (scanZones p (z :: Zt) acc).1 =
        (checkZoneForPoint p z acc).1 ::
          (scanZones p Zt ((checkZoneForPoint p z acc).2)).1 := rfl
    have hsnd : (scanZones p (z :: Zt) acc).2 =
        (scanZones p Zt ((checkZoneForPoint p z acc).2)).2 := rfl
    constructor
    · rw [hfst]
      exact List.Forall₂.cons hvar1 hvar2
    · intro c
      rw [hsnd, hmem2 c, hmem1 c]
      constructor
      · rintro ((hc | hclause) | ⟨w, hw, hφ⟩)
        · exact Or.inl hc
        · exact Or.inr ⟨z0, List.mem_cons_self _ _, hclause⟩
        · exact Or.inr ⟨w, List.mem_cons_of_mem _ hw, hφ⟩
      · rintro (hc | ⟨w, hw, hφ⟩)
        · exact Or.inl (Or.inl hc)
        · rcases List.mem_cons.mp hw with rfl | hw2
          · exact Or.inl (Or.inr hφ)
          · exact Or.inr ⟨w, hw2, hφ⟩

/-- The whole route scan: the final accumulated set is the union over route
points of the classifications of active zones containing them. -/
theorem scanRoute_spec :
    ∀ (ps : List Position) {Z0 Z : List Zone} (acc : List (Option ZoneType)),
      List.Forall₂ CloseVar Z0 Z →
      ∀ c, c ∈ (scanRoute ps Z acc).2 ↔
        (c ∈ acc ∨ ∃ q ∈ ps, ∃ z0 ∈ Z0, z0.isActive = true ∧
          zoneTypeLookup z0.zoneType = c ∧ zonePolygonContains z0 q = true) := by
  intro ps
  induction ps with
  | nil =>
    intro Z0 Z acc h c
    simp [scanRoute]
  | cons q qs ih =>
    intro Z0 Z acc h c
    obtain ⟨hvar, hmem⟩ := scanZones_spec q h acc
    have hstep : (scanRoute (q :: qs) Z acc).2 =
        (scanRoute qs ((scanZones q Z acc).1) ((scanZones q Z acc).2)).2 := rfl
    rw [hstep, ih _ hvar c, hmem c]
    constructor
    · rintro ((hc | ⟨w, hw, hφ⟩) | ⟨r, hr, hφ⟩)
      · exact Or.inl hc
      · exact Or.inr ⟨q, List.mem_cons_self _ _, w, hw, hφ⟩
      · exact Or.inr ⟨r, List.mem_cons_of_mem _ hr, hφ⟩
    · rintro (hc | ⟨r, hr, hφ⟩)
      · exact Or.inl (Or.inl hc)
      · rcases List.mem_cons.mp hr with rfl | hr2
        · exact Or.inl (Or.inr hφ)
        · exact Or.inr ⟨r, hr2, hφ⟩

/-- C7: for zone lists with well-formed boundaries (the spec's ≥ 3 vertex
invariant, under which the embedding is faithful to turf), permuting the
route's points never changes the resulting set of zone classifications
computed by `getRouteCharacteristics` — despite the early-skip optimization
and the stateful in-place boundary closing. -/
theorem routeCharacteristics_zoneSet_perm (zonesLimits : List Zone)
    (dId : Option String) (st et : Int) (ps qs : List Position)
    (hperm : ps.Perm qs)
    (hwf : ∀ z ∈ zonesLimits, 3 ≤ z.boundaries.length) :
    ∀ c, c ∈ (getRouteCharacteristics zonesLimits
        ⟨dId, some ⟨ps, st, et⟩⟩).zones ↔
      c ∈ (getRouteCharacteristics zonesLimits ⟨dId, some ⟨qs, st, et⟩⟩).zones := by
  intro c
  have hz : ∀ (rs : List Position), rs ≠ [] →
      (getRouteCharacteristics zonesLimits ⟨dId, some ⟨rs, st, et⟩⟩).zones =
        (scanRoute rs zonesLimits []).2 := by
    intro rs hrs
    cases rs with
    | nil => exact absurd rfl hrs
    | cons r rt => rfl
  cases ps with
  | nil =>
    have hqs : qs = [] := hperm.nil_eq.symm
    rw [hqs]
  | cons p1 pt =>
    have hqs : qs ≠ [] := by
      intro hq
      rw [hq] at hperm
      cases hperm.eq_nil
    rw [hz (p1 :: pt) (List.cons_ne_nil _ _), hz qs hqs]
    rw [scanRoute_spec (p1 :: pt) [] (closeVar_forall₂_refl zonesLimits) c,
      scanRoute_spec qs [] (closeVar_forall₂_refl zonesLimits) c]
    simp only [List.not_mem_nil, false_or]
    constructor
    · rintro ⟨r, hr, hφ⟩
      exact ⟨r, hperm.mem_iff.mp hr, hφ⟩
    · rintro ⟨r, hr, hφ⟩
      exact ⟨r, hperm.mem_iff.mpr hr, hφ⟩

/-- A point inside `zoneUrbanEx`. -/
def pInUrbanEx : Position := ⟨4075/100, -7405/100, 60⟩

/-- Witness for C7: swapping the two points of a concrete route (one inside
the urban zone, one outside every zone) leaves the characterized zone set
unchanged. -/
theorem routeCharacteristics_zoneSet_perm_witness :
    (∀ z ∈ [zoneUrbanEx, zoneRestrictedEx], 3 ≤ z.boundaries.length) ∧
    ∀ c, c ∈ (getRouteCharacteristics [zoneUrbanEx, zoneRestrictedEx]
        ⟨some "d1", some ⟨[pInUrbanEx, pointOutsideEx], 0, 3600⟩⟩).zones ↔
      c ∈ (getRouteCharacteristics [zoneUrbanEx, zoneRestrictedEx]
        ⟨some "d1", some ⟨[pointOutsideEx, pInUrbanEx], 0, 3600⟩⟩).zones :=
  ⟨by decide,
    routeCharacteristics_zoneSet_perm [zoneUrbanEx, zoneRestrictedEx]
      (some "d1") 0 3600 [pInUrbanEx, pointOutsideEx]
      [pointOutsideEx, pInUrbanEx]
      (List.Perm.swap pointOutsideEx pInUrbanEx [])
      (by decide)⟩

end UTM
